import Mathlib

/-!
Verification development for the agent-mrkt gasless stablecoin payment
router.  The definitions below are a shallow embedding of the TypeScript
source: `src/mrkt/src/config/tokens.ts`, `src/mrkt/src/lib/db.ts`,
`src/mrkt/src/lib/router/validation.ts`, `src/mrkt/src/lib/router/transfers.ts`,
`src/mrkt/src/lib/cctp/service.ts`, the payment helpers
(`findBestPermitForPayment`, `getTargetChainId`, `needsCrossChainTransfer`,
`processCCTPPayment`), and the permit-submission handler
(`submitPermitOnChain`).  On-chain reads, receipts and the attestation
provider are supplied through explicit environment records; on-chain writes
are recorded in an event trace.  JavaScript numbers used for USD values are
modelled as rationals, integer counters as integers.
-/

/- The Batteries rational-number kernel marks its arithmetic irreducible;
reducibility is restored here so that concrete runs of the embedded
functions evaluate inside `decide`/`rfl` proofs. -/
attribute [local semireducible] Rat.mul Rat.add Rat.sub Rat.inv

namespace AgentMrkt

/-! ## String primitives

JavaScript's `toLowerCase` and `slice` are modelled on the character
list of the string (all strings handled by the router are ASCII). -/

/-- ASCII lowercasing of one character (JS `toLowerCase` restricted to the
ASCII inputs the router handles). -/
def lowerChar (c : Char) : Char :=
  if c.toNat ≥ 65 ∧ c.toNat ≤ 90 then Char.ofNat (c.toNat + 32) else c

/-- JS `String.prototype.toLowerCase`. -/
def lowerStr (s : String) : String := String.mk (s.data.map lowerChar)

/-- JS `String.prototype.slice(n)` (drop the first `n` code units). -/
def strDrop (s : String) (n : Nat) : String := String.mk (s.data.drop n)

/-- The first `n` code units (used for JS `slice(a, b)` as drop-then-take). -/
def strTake (s : String) (n : Nat) : String := String.mk (s.data.take n)

/-! ## Chain registry (src/mrkt/src/config/tokens.ts) -/

namespace SupportedChainId

def ETH_SEPOLIA : Int := 11155111
def BASE_SEPOLIA : Int := 84532
def ETH_MAINNET : Int := 1
def ARB_MAINNET : Int := 42161
def BASE_MAINNET : Int := 8453

end SupportedChainId

/-- `getTokenAddress` from `config/tokens.ts`: looks up the token contract
address for a `(symbol, chainId)` pair in `SUPPORTED_TOKENS`. -/
def getTokenAddress (token : String) (chainId : Int) : Option String :=
  if token = "USDC" then
    if chainId = SupportedChainId.ETH_SEPOLIA then
      some "0x1c7d4b196cb0c7b01d743fbc6116a902379c7238"
    else if chainId = SupportedChainId.BASE_SEPOLIA then
      some "0x036CbD53842c5426634e7929541eC2318f3dCF7e"
    else none
  else if token = "PYUSD" then
    if chainId = SupportedChainId.ETH_SEPOLIA then
      some "0xcac524bca292aaade2df8a05cc58f0a65b1b3bb9"
    else none
  else if token = "EURC" then
    if chainId = SupportedChainId.ETH_SEPOLIA then
      some "0x08210F9170F89Ab7658F0B5E3fF39b0E03C594D4"
    else if chainId = SupportedChainId.BASE_SEPOLIA then
      some "0x808456652fdb597867f38412077A9182bf77359F"
    else none
  else none

/-- `getTokenDecimals` from `config/tokens.ts`: every supported token is
configured with 6 decimals and `DEFAULT_DECIMALS = 6` is the fallback. -/
def getTokenDecimals (_token : String) : Nat := 6

/-- `formatTokenAmount` from `config/tokens.ts`: converts base units to a
human-readable amount by dividing by `10 ^ decimals`. -/
def formatTokenAmount (amount : Int) (token : String) : ℚ :=
  (amount : ℚ) / ((10 : ℚ) ^ getTokenDecimals token)

/-- `getDestinationDomain` from `config/tokens.ts`. -/
def getDestinationDomain (chainId : Int) : Option Int :=
  if chainId = SupportedChainId.ETH_SEPOLIA then some 0
  else if chainId = SupportedChainId.BASE_SEPOLIA then some 6
  else none

/-- `createRouterPublicClient` / `createRouterWalletClient`
(`lib/router/clients.ts`) return a client only for Base Sepolia and
Ethereum Sepolia; every other chain id yields `null`.  We model only
whether a client exists. -/
def routerClientSupported (chainId : Int) : Bool :=
  chainId = SupportedChainId.BASE_SEPOLIA || chainId = SupportedChainId.ETH_SEPOLIA

/-! ## Data model (src/mrkt/src/lib/db.ts, lib/permits/types.ts) -/

structure PaymentPreferences where
  payout_token : String
  payout_network : String
deriving Repr, DecidableEq

structure Agent where
  id : String
  publisher_wallet_address : String
  price_per_call_usd : ℚ
  payment_preferences : PaymentPreferences
deriving Repr, DecidableEq

structure UserPermit where
  id : String
  userAddress : String
  token : String
  chainId : Int
  spenderAddress : String
  amount : Int
  nonce : Int
  deadline : Int
  status : String
  createdAt : Int
  expiresAt : Int
  maxCalls : Int
  callsUsed : Int
  costPerCall : ℚ
  hasTokenPermitSig : Bool
deriving Repr, DecidableEq

structure CrossChainPayment where
  id : String
  agentId : String
  userId : String
  sourceChainId : Int
  targetChainId : Int
  amount : Int
  token : String
  messageHash : String
  sourceTransactionHash : Option String
  targetTransactionHash : Option String
  attestationStatus : String
  permitId : String
  createdAt : Int
  completedAt : Option Int
  errorMessage : Option String
deriving Repr, DecidableEq

structure Payment where
  id : String
  user_id : String
  agent_id : String
  amount_usd : ℚ
  token : String
  transaction_hash : String
  status : String
  api_call_id : String
  message_hash : Option String
  cross_chain_payment_id : Option String
deriving Repr, DecidableEq

/-- The slice of the file-backed JSON store touched by the payment path. -/
structure DB where
  permits : List UserPermit
  crossChainPayments : List CrossChainPayment
  payments : List Payment
deriving Repr, DecidableEq

/-- `createPermit` from `lib/db.ts`: pushes the new permit onto the
`permits` array and writes the file; nothing else is modified. -/
def createPermit (db : DB) (p : UserPermit) : DB :=
  { db with permits := db.permits ++ [p] }

/-- `updatePermitStatus` from `lib/db.ts`: finds the permit by id and
overwrites its status. -/
def updatePermitStatus (db : DB) (id : String) (status : String) : DB :=
  { db with permits := db.permits.map (fun p => if p.id = id then { p with status := status } else p) }

/-- Modelled from the spec: `updateUsage(id, callsUsed)` of the Permit
Store (§4.4).  The function `updatePermitUsage` is called by the Transfer
Engine (`transfers.ts`, `router.ts`, `payments.ts`) but its definition is
not among the provided source files; per the spec it overwrites the usage
counter of the permit with the given id. -/
def updatePermitUsage (db : DB) (id : String) (callsUsed : Int) : DB :=
  { db with permits := db.permits.map (fun p => if p.id = id then { p with callsUsed := callsUsed } else p) }

/-- `createCrossChainPayment`: pushes the record (store-level append, as for
the other `create*` functions of `lib/db.ts`). -/
def createCrossChainPayment (db : DB) (c : CrossChainPayment) : DB :=
  { db with crossChainPayments := db.crossChainPayments ++ [c] }

/-- `createPayment` from `lib/db.ts`: pushes the payment record. -/
def createPayment (db : DB) (p : Payment) : DB :=
  { db with payments := db.payments ++ [p] }

/-! ## Payment selector (`findBestPermitForPayment`, `getTargetChainId`) -/

/-- The remaining USD value `(maxCalls - callsUsed) * costPerCall` used by
`findBestPermitForPayment` both for the viability filter and as the sort
key (`aBalance` / `bBalance` in the source). -/
def remainingValue (p : UserPermit) : ℚ :=
  ((p.maxCalls - p.callsUsed : Int) : ℚ) * p.costPerCall

/-- `getTargetChainId`: maps the agent's `payout_network` (lowercased) to a
chain id; any unrecognized network falls through to Base Sepolia. -/
def getTargetChainId (network : String) : Int :=
  let n := lowerStr network
  if n = "base" || n = "base_sepolia" then SupportedChainId.BASE_SEPOLIA
  else if n = "ethereum" || n = "eth_sepolia" then SupportedChainId.ETH_SEPOLIA
  else if n = "arbitrum" || n = "arbitrum_sepolia" then SupportedChainId.ARB_MAINNET
  else SupportedChainId.BASE_SEPOLIA

/-- Stable descending insertion: place `p` before the first element whose
remaining value is not larger (so `p` precedes later elements of equal
value, as a stable sort demands). -/
def insertDesc (p : UserPermit) : List UserPermit → List UserPermit
  | [] => [p]
  | q :: t =>
    if remainingValue q ≤ remainingValue p then p :: q :: t
    else q :: insertDesc p t

/-- The `.sort((a, b) => bBalance - aBalance)` of the source: a stable sort
by remaining value, descending (ECMAScript sorts are stable; any stable
sort computes the same list). -/
def sortByRemainingDesc : List UserPermit → List UserPermit
  | [] => []
  | p :: rest => insertDesc p (sortByRemainingDesc rest)

/-- `findBestPermitForPayment` from the payment helpers: filter viable
permits, prefer the agent's `(payout_token, target chain)`, else USDC,
else anything, and in each bucket return the head of the descending sort. -/
def findBestPermitForPayment (permits : List UserPermit) (agent : Agent) (costUsd : ℚ) :
    Option UserPermit :=
  let viablePermits := permits.filter (fun p => decide (remainingValue p ≥ costUsd))
  if viablePermits.isEmpty then none
  else
    let targetChainId := getTargetChainId agent.payment_preferences.payout_network
    let preferredPermits := viablePermits.filter
      (fun p => p.token == agent.payment_preferences.payout_token && p.chainId == targetChainId)
    if !preferredPermits.isEmpty then (sortByRemainingDesc preferredPermits).head?
    else
      let usdcPermits := viablePermits.filter (fun p => p.token == "USDC")
      if !usdcPermits.isEmpty then (sortByRemainingDesc usdcPermits).head?
      else (sortByRemainingDesc viablePermits).head?

/-- `needsCrossChainTransfer` from the payment helpers, including the early
`return true` for non-USDC tokens on a differing chain. -/
def needsCrossChainTransfer (permit : UserPermit) (agent : Agent) : Bool :=
  let targetChainId := getTargetChainId agent.payment_preferences.payout_network
  let targetToken := agent.payment_preferences.payout_token
  let chainsDiffer := permit.chainId != targetChainId
  let tokensDiffer := permit.token != targetToken
  if chainsDiffer && permit.token != "USDC" then true
  else chainsDiffer || tokensDiffer

/-! ## Chain validator (src/mrkt/src/lib/router/validation.ts)

The on-chain reads (`balanceOf`, ERC-20 `allowance`, Permit2 `allowance`)
are supplied as explicit arguments; each function computes the structured
result exactly as the source does. -/

structure BalanceValidationResult where
  hasBalance : Bool
  actualBalance : ℚ
  error : Option String
deriving Repr, DecidableEq

structure AllowanceValidationResult where
  hasAllowance : Bool
  actualAllowance : ℚ
  error : Option String
deriving Repr, DecidableEq

structure Permit2ValidationResult where
  hasAllowance : Bool
  actualAllowance : ℚ
  expiration : Int
  nonce : Int
  error : Option String
deriving Repr, DecidableEq

/-- `validateOnChainBalance`: unsupported chain and unsupported token give a
negative result with an error; otherwise `hasBalance` is the inclusive
comparison `actualBalance >= requiredAmount` on the formatted balance.
`balanceRead` is the raw `balanceOf(userAddress)` read. -/
def validateOnChainBalance (chainId : Int) (token : String) (balanceRead : Int)
    (requiredAmount : ℚ) : BalanceValidationResult :=
  if !routerClientSupported chainId then
    { hasBalance := false, actualBalance := 0, error := some "Unsupported chain" }
  else
    match getTokenAddress token chainId with
    | none =>
      { hasBalance := false, actualBalance := 0, error := some "Token not supported on this chain" }
    | some _ =>
      let actualBalance := formatTokenAmount balanceRead token
      { hasBalance := decide (actualBalance ≥ requiredAmount), actualBalance := actualBalance,
        error := none }

/-- `validateTokenToPermit2Allowance`: the user's ERC-20 allowance to the
Permit2 contract; inclusive comparison.  `allowanceRead` is the raw
`allowance(userAddress, PERMIT2_ADDRESS)` read. -/
def validateTokenToPermit2Allowance (chainId : Int) (token : String) (allowanceRead : Int)
    (requiredAmount : ℚ) : AllowanceValidationResult :=
  if !routerClientSupported chainId then
    { hasAllowance := false, actualAllowance := 0, error := some "Configuration error" }
  else
    match getTokenAddress token chainId with
    | none =>
      { hasAllowance := false, actualAllowance := 0, error := some "Configuration error" }
    | some _ =>
      let actualAllowance := formatTokenAmount allowanceRead token
      { hasAllowance := decide (actualAllowance ≥ requiredAmount),
        actualAllowance := actualAllowance, error := none }

/-- `validatePermit2Allowance`: the Permit2 `allowance(user, token, spender)`
read returns `(amount, expiration, nonce)`; the allowance is valid iff the
formatted amount is at least the required amount (inclusive) and the
expiration is strictly greater than the current Unix time. -/
def validatePermit2Allowance (chainId : Int) (token : String)
    (allowanceAmount : Int) (expiration : Int) (nonce : Int)
    (currentTime : Int) (requiredAmount : ℚ) : Permit2ValidationResult :=
  if !routerClientSupported chainId then
    { hasAllowance := false, actualAllowance := 0, expiration := 0, nonce := 0,
      error := some "Configuration error" }
  else
    match getTokenAddress token chainId with
    | none =>
      { hasAllowance := false, actualAllowance := 0, expiration := 0, nonce := 0,
        error := some "Configuration error" }
    | some _ =>
      let actualAllowance := formatTokenAmount allowanceAmount token
      { hasAllowance := decide (actualAllowance ≥ requiredAmount) && decide (expiration > currentTime),
        actualAllowance := actualAllowance, expiration := expiration, nonce := nonce,
        error := none }

/-- `validatePreTransferRequirements`: combines the balance check and the
token-to-Permit2 allowance check, collecting error strings; valid iff no
errors. -/
structure PreTransferValidationResult where
  isValid : Bool
  balanceCheck : BalanceValidationResult
  permit2AllowanceCheck : AllowanceValidationResult
  errors : List String
deriving Repr, DecidableEq

def validatePreTransferRequirements (chainId : Int) (token : String)
    (balanceRead : Int) (permit2AllowanceRead : Int) (requiredAmount : ℚ) :
    PreTransferValidationResult :=
  let balanceCheck := validateOnChainBalance chainId token balanceRead requiredAmount
  let permit2AllowanceCheck :=
    validateTokenToPermit2Allowance chainId token permit2AllowanceRead requiredAmount
  let errors :=
    (if !balanceCheck.hasBalance then ["Insufficient balance"] else []) ++
    (if !permit2AllowanceCheck.hasAllowance then ["Insufficient token allowance to Permit2"] else []) ++
    (match balanceCheck.error with | some e => ["Balance check error: " ++ e] | none => []) ++
    (match permit2AllowanceCheck.error with | some e => ["Permit2 allowance check error: " ++ e] | none => [])
  { isValid := errors.isEmpty, balanceCheck := balanceCheck,
    permit2AllowanceCheck := permit2AllowanceCheck, errors := errors }

/-! ## CCTP service (src/mrkt/src/lib/cctp/service.ts) and transfer engine
(src/mrkt/src/lib/router/transfers.ts)

On-chain writes are recorded as `ChainWrite` events; outcomes of writes,
receipt waits, burn-receipt logs and the attestation provider come from a
`TransferEnv` record.  `keccak256` (a viem library function) is a field of
the environment, so every theorem quantifies over it. -/

def PERMIT2_ADDRESS : String := "0x000000000022D473030F116dDEE9F6B43aC78BA3"

def MESSAGE_SENT_EVENT_SIGNATURE : String :=
  "0x8c5261668696ce22758910d05bab8f186d6eb247ceac2af2e82c7dc17669b036"

/-- `CHAIN_IDS_TO_TOKEN_MESSENGER_ADDRESSES` lookup
(`getTokenMessengerContractAddress`; throws outside the configured set). -/
def getTokenMessengerContractAddress (chainId : Int) : Option String :=
  if chainId = 11155111 ∨ chainId = 84532 ∨ chainId = 1 ∨ chainId = 42161 ∨ chainId = 8453 then
    some "0x8fe6b999dc680ccfdd5bf7eb0974218be2542daa"
  else none

/-- `CHAIN_IDS_TO_MESSAGE_TRANSMITTER_ADDRESSES` lookup. -/
def getMessageTransmitterContractAddress (chainId : Int) : Option String :=
  if chainId = 11155111 ∨ chainId = 84532 ∨ chainId = 1 ∨ chainId = 42161 ∨ chainId = 8453 then
    some "0xe737e5cebeeba77efe34d4aa090756590b1ce275"
  else none

/-- `CCTPService.getViemChain` supports only Ethereum Sepolia and Base
Sepolia; other chain ids throw. -/
def cctpViemChainSupported (chainId : Int) : Bool :=
  chainId = SupportedChainId.ETH_SEPOLIA || chainId = SupportedChainId.BASE_SEPOLIA

/-- `parseAmount` (`lib/cctp/service.ts`) is viem's `parseUnits`: a decimal
USD amount scaled by `10 ^ decimals` to integer base units. -/
def parseAmount (amount : ℚ) (decimals : Nat) : Int :=
  (amount * (10 : ℚ) ^ decimals).floor

/-- One log entry of a transaction receipt (only the first topic and the
data field are consumed by the source). -/
structure Log where
  topic0 : String
  data : String
deriving Repr, DecidableEq

/-- On-chain writes issued through `writeContract`, in order. -/
inductive ChainWrite where
  | transferFrom (chainId : Int) (token fromAddr toAddr : String) (amount : Int)
  | approve (chainId : Int) (token spender : String) (amount : Int)
  | depositForBurn (chainId : Int) (amount : Int) (destinationDomain : Int)
      (mintRecipient burnToken : String) (maxFee : Int) (finalityThreshold : Int)
  | receiveMessage (chainId : Int)
  | tokenPermit (chainId : Int) (owner spender : String)
  | permit2Permit (chainId : Int) (owner : String) (nonce : Int)
deriving Repr, DecidableEq

/-- Failure taxonomy of the transfer engine (thrown `Error`s in the
source, by throw site). -/
inductive TransferError where
  | adminKeyMissing
  | unsupportedChain (chainId : Int)
  | tokenNotSupported (token : String) (chainId : Int)
  | transferFromFailed (msg : String)
  | approveFailed (msg : String)
  | depositForBurnFailed (msg : String)
  | cctpValidationFailed (msg : String)
  | unsupportedTargetChain (chainId : Int)
  | attestationPollingFailed (msg : String)
  | redemptionFailed (msg : String)
  | cctpTransferFailed (inner : TransferError)
deriving Repr, DecidableEq

/-- Environment for one transfer: outcomes of the on-chain writes and
receipt waits, the burn receipt's logs, the attestation provider's
outcome (already parsed to a `(message, attestation)` pair), the hash
function and the wall clock. -/
structure TransferEnv where
  adminKeyConfigured : Bool
  keccak256 : String → String
  sameChainWriteOutcome : Except String String
  permitTransferOutcome : Except String Unit
  approveOutcome : Except String Unit
  depositOutcome : Except String String
  burnReceiptLogs : List Log
  attestationOutcome : Except String (String × String)
  receiveOutcome : Except String String
  nowMs : Int

structure TransferResult where
  transactionHash : String
  messageHash : Option String
  crossChainPaymentId : Option String
deriving Repr, DecidableEq

structure TransferParams where
  fromAddress : String
  toAddress : String
  amount : ℚ
  sourceChainId : Int
  targetChainId : Int
  token : String
  permit : UserPermit
deriving Repr

/-- `executePermitTransfer` (`transfers.ts`): admin `transferFrom` of the
user's tokens to the permit's spender (the admin wallet), then a receipt
wait; a failed receipt throws after the write was issued. -/
def executePermitTransfer (env : TransferEnv) (permit : UserPermit) (amount : Int)
    (chainId : Int) : Except TransferError Unit × List ChainWrite :=
  if !routerClientSupported chainId then (.error (.unsupportedChain chainId), [])
  else
    match getTokenAddress permit.token chainId with
    | none => (.error (.tokenNotSupported permit.token chainId), [])
    | some tokenAddress =>
      let w := ChainWrite.transferFrom chainId tokenAddress permit.userAddress
        permit.spenderAddress amount
      match env.permitTransferOutcome with
      | .error msg => (.error (.transferFromFailed msg), [w])
      | .ok _ => (.ok (), [w])

/-- `approveTokenMessenger` (`transfers.ts`): admin approves the
TokenMessenger, then waits for the receipt. -/
def approveTokenMessenger (env : TransferEnv) (tokenAddress : String) (amount : Int)
    (chainId : Int) : Except TransferError Unit × List ChainWrite :=
  if !routerClientSupported chainId then (.error (.unsupportedChain chainId), [])
  else
    match getTokenMessengerContractAddress chainId with
    | none => (.error (.unsupportedChain chainId), [])
    | some tm =>
      let w := ChainWrite.approve chainId tokenAddress tm amount
      match env.approveOutcome with
      | .error msg => (.error (.approveFailed msg), [w])
      | .ok _ => (.ok (), [w])

/-- `CCTPService.depositForBurn` (server path with a private key): computes
`maxFee = amount * 5 / 1000` and `finalityThreshold = 2000` for the
standard transfer type, then issues the burn write; the server path never
returns a `messageHash`. -/
def cctpDepositForBurn (env : TransferEnv) (chainId : Int) (amount : Int)
    (destinationDomain : Int) (mintRecipient burnToken : String) :
    Except TransferError (String × Option String) × List ChainWrite :=
  let finalityThreshold : Int := 2000
  let maxFee := amount * 5 / 1000
  match getTokenMessengerContractAddress chainId with
  | none => (.error (.depositForBurnFailed "Unsupported chain ID"), [])
  | some tm =>
    if !cctpViemChainSupported chainId then
      (.error (.depositForBurnFailed "Unsupported chain ID"), [])
    else
      let w := ChainWrite.depositForBurn chainId amount destinationDomain mintRecipient
        burnToken maxFee finalityThreshold
      let _ := tm
      match env.depositOutcome with
      | .error msg => (.error (.depositForBurnFailed msg), [w])
      | .ok hash => (.ok (hash, none), [w])

/-- `CCTPService.receiveMessage` (server path): redemption write on the
target chain. -/
def cctpReceiveMessage (env : TransferEnv) (chainId : Int)
    (_message _attestation : String) : Except TransferError String × List ChainWrite :=
  match getMessageTransmitterContractAddress chainId with
  | none => (.error (.redemptionFailed "Unsupported chain ID"), [])
  | some _ =>
    if !cctpViemChainSupported chainId then
      (.error (.redemptionFailed "Unsupported chain ID"), [])
    else
      let w := ChainWrite.receiveMessage chainId
      match env.receiveOutcome with
      | .error msg => (.error (.redemptionFailed msg), [w])
      | .ok h => (.ok h, [w])

/-- `CCTPService.validateTransfer`: the cross-chain gate.  Non-USDC tokens
are rejected first; then chain domains, token addresses on both chains,
and amount positivity. -/
def validateTransfer (sourceChainId targetChainId : Int) (token : String) (amount : ℚ) :
    Option String :=
  if token ≠ "USDC" then
    some "CCTP v2 only supports USDC for cross-chain transfers"
  else if getDestinationDomain sourceChainId = none ∨ getDestinationDomain targetChainId = none then
    some "Unsupported chain for CCTP transfer"
  else if getTokenAddress token sourceChainId = none ∨ getTokenAddress token targetChainId = none then
    some "Token not supported on one or both chains"
  else if parseAmount amount 6 ≤ 0 then
    some "Amount must be greater than 0"
  else none

/-- `extractMessageHashFromReceipt` (`transfers.ts`): find the first log of
the burn receipt whose first topic is `MESSAGE_SENT_EVENT_SIGNATURE` and
hash its `data` field with keccak256; no such log is an error. -/
def extractMessageHashFromReceipt (env : TransferEnv) (_transactionHash : String)
    (chainId : Int) : Except String String :=
  if !routerClientSupported chainId then .error "Unsupported chain ID"
  else
    match env.burnReceiptLogs.find? (fun log => log.topic0 == MESSAGE_SENT_EVENT_SIGNATURE) with
    | none => .error "MessageSent event not found in transaction receipt"
    | some log => .ok (env.keccak256 log.data)

/-- `executeSameChainTransfer` (`transfers.ts`): a single admin
`transferFrom(user, publisher, amount)`; the result carries no
`messageHash`. -/
def executeSameChainTransfer (env : TransferEnv) (params : TransferParams) :
    Except TransferError TransferResult × List ChainWrite :=
  if !env.adminKeyConfigured then (.error .adminKeyMissing, [])
  else
    match getTokenAddress params.token params.sourceChainId with
    | none => (.error (.tokenNotSupported params.token params.sourceChainId), [])
    | some tokenAddress =>
      if !routerClientSupported params.sourceChainId then
        (.error (.unsupportedChain params.sourceChainId), [])
      else
        let amountInTokenUnits := parseAmount params.amount 6
        let w := ChainWrite.transferFrom params.sourceChainId tokenAddress
          params.fromAddress params.toAddress amountInTokenUnits
        match env.sameChainWriteOutcome with
        | .error msg => (.error (.transferFromFailed msg), [w])
        | .ok txHash =>
          (.ok { transactionHash := txHash, messageHash := none, crossChainPaymentId := none }, [w])

/-- `executeCCTPTransfer` (`transfers.ts`): the transfer engine.  The
same-chain branch keeps the source's tautological condition
`sourceChainId === targetChainId && token === token`.  The cross-chain
branch validates, pulls funds to the admin, approves the burner, burns,
extracts (or falls back on) the message hash, persists the
`CrossChainPayment` record, waits for the attestation, redeems on the
target chain and finally increments the permit's usage counter.  On
attestation or redemption failure only the in-memory record is mutated
(`updateCrossChainPayment` does not exist in the source), so the stored
record keeps the status it was created with. -/
def executeCCTPTransfer (env : TransferEnv) (params : TransferParams) (db : DB) :
    Except TransferError TransferResult × DB × List ChainWrite :=
  if params.sourceChainId == params.targetChainId && params.token == params.token then
    match executeSameChainTransfer env params with
    | (r, ws) => (r, db, ws)
  else
    match validateTransfer params.sourceChainId params.targetChainId params.token params.amount with
    | some err => (.error (.cctpValidationFailed err), db, [])
    | none =>
      let amountUnits := parseAmount params.amount 6
      let crossChainPayment : CrossChainPayment :=
        { id := "cctp_" ++ toString env.nowMs,
          agentId := "", userId := "",
          sourceChainId := params.sourceChainId,
          targetChainId := params.targetChainId,
          amount := amountUnits,
          token := params.token,
          messageHash := "",
          sourceTransactionHash := none, targetTransactionHash := none,
          attestationStatus := "pending",
          permitId := params.permit.id,
          createdAt := env.nowMs, completedAt := none, errorMessage := none }
      if !env.adminKeyConfigured then (.error (.cctpTransferFailed .adminKeyMissing), db, [])
      else
        match getDestinationDomain params.targetChainId with
        | none =>
          (.error (.cctpTransferFailed (.unsupportedTargetChain params.targetChainId)), db, [])
        | some destinationDomain =>
          match getTokenAddress params.token params.sourceChainId with
          | none =>
            (.error (.cctpTransferFailed (.tokenNotSupported params.token params.sourceChainId)), db, [])
          | some burnTokenAddress =>
            match executePermitTransfer env params.permit amountUnits params.sourceChainId with
            | (.error e, ws1) => (.error (.cctpTransferFailed e), db, ws1)
            | (.ok _, ws1) =>
              match approveTokenMessenger env burnTokenAddress amountUnits params.sourceChainId with
              | (.error e, ws2) => (.error (.cctpTransferFailed e), db, ws1 ++ ws2)
              | (.ok _, ws2) =>
                match cctpDepositForBurn env params.sourceChainId amountUnits destinationDomain
                  params.toAddress burnTokenAddress with
                | (.error e, ws3) => (.error (.cctpTransferFailed e), db, ws1 ++ ws2 ++ ws3)
                | (.ok depositResult, ws3) =>
                  let transactionHash := depositResult.1
                  let messageHash :=
                    match depositResult.2 with
                    | some h => h
                    | none =>
                      match extractMessageHashFromReceipt env transactionHash params.sourceChainId with
                      | .ok h => h
                      | .error _ => "0x" ++ strTake (strDrop transactionHash 2) 64
                  let ccp := { crossChainPayment with
                    sourceTransactionHash := some transactionHash,
                    messageHash := messageHash,
                    attestationStatus := "pending" }
                  let db1 := createCrossChainPayment db ccp
                  match env.attestationOutcome with
                  | .error msg =>
                    (.error (.cctpTransferFailed (.attestationPollingFailed msg)), db1,
                      ws1 ++ ws2 ++ ws3)
                  | .ok attestationData =>
                    match cctpReceiveMessage env params.targetChainId attestationData.1
                      attestationData.2 with
                    | (.error e, ws4) =>
                      (.error (.cctpTransferFailed e), db1, ws1 ++ ws2 ++ ws3 ++ ws4)
                    | (.ok _targetTxHash, ws4) =>
                      let db2 := updatePermitUsage db1 params.permit.id (params.permit.callsUsed + 1)
                      (.ok { transactionHash := transactionHash, messageHash := some messageHash,
                             crossChainPaymentId := some ccp.id }, db2,
                        ws1 ++ ws2 ++ ws3 ++ ws4)

/-- Failure taxonomy of `processCCTPPayment`. -/
inductive PaymentError where
  | noActivePermits
  | insufficientPermitBalance
  | publisherWalletMissing
  | transferFailed (e : TransferError)
deriving Repr, DecidableEq

/-- `processCCTPPayment` (payment helpers): resolves the user's active
permits, selects the best one, executes the transfer, and — for a
same-chain result (no message hash) — increments the permit's usage
counter before recording the `Payment`.  The user and agent lookups of
the source are resolved by the caller here (the user is identified by
wallet address). -/
def processCCTPPayment (env : TransferEnv) (db : DB) (userWallet : String) (agent : Agent)
    (costUsd : ℚ) (apiCallId : String) : Except PaymentError Unit × DB × List ChainWrite :=
  let userPermits := db.permits.filter (fun p => lowerStr p.userAddress == lowerStr userWallet)
  let activePermits := userPermits.filter (fun p => p.status == "active")
  if activePermits.isEmpty then (.error .noActivePermits, db, [])
  else
    match findBestPermitForPayment activePermits agent costUsd with
    | none => (.error .insufficientPermitBalance, db, [])
    | some bestPermit =>
      if agent.publisher_wallet_address = "" then (.error .publisherWalletMissing, db, [])
      else
        let targetChainId := getTargetChainId agent.payment_preferences.payout_network
        match executeCCTPTransfer env
          { fromAddress := userWallet, toAddress := agent.publisher_wallet_address,
            amount := costUsd, sourceChainId := bestPermit.chainId,
            targetChainId := targetChainId, token := bestPermit.token,
            permit := bestPermit } db with
        | (.error e, db1, ws) => (.error (.transferFailed e), db1, ws)
        | (.ok paymentResult, db1, ws) =>
          let db2 :=
            if paymentResult.messageHash = none then
              updatePermitUsage db1 bestPermit.id (bestPermit.callsUsed + 1)
            else db1
          let paymentData : Payment :=
            { id := "payment_" ++ toString env.nowMs,
              user_id := userWallet, agent_id := agent.id,
              amount_usd := costUsd, token := bestPermit.token,
              transaction_hash := paymentResult.transactionHash,
              status := if paymentResult.messageHash ≠ none then "pending_attestation" else "completed",
              api_call_id := apiCallId,
              message_hash := paymentResult.messageHash,
              cross_chain_payment_id := paymentResult.crossChainPaymentId }
          (.ok (), createPayment db2 paymentData, ws)

/-! ## Permit submitter (`submitPermitOnChain`, permit-creation handler) -/

/-- Environment for one permit submission: the Permit2 allowance nonce
read for `(user, token, spender)`, the balance and allowance reads
consumed by the pre-transfer validation, and the outcomes of the two
possible writes. -/
structure SubmitEnv where
  adminKeyConfigured : Bool
  onChainNonce : Int
  balanceRead : Int
  permit2AllowanceRead : Int
  tokenPermitOutcome : Except String Unit
  permit2SubmitOutcome : Except String String
deriving Repr

/-- Failure taxonomy of `submitPermitOnChain` (thrown `Error`s, by throw
site).  `permitStale` is the "Permit nonce mismatch" throw — the
`PermitStale` failure of the spec's taxonomy. -/
inductive SubmitError where
  | adminKeyMissing
  | tokenAddressNotFound (token : String) (chainId : Int)
  | permitStale (expected got : Int)
  | tokenPermitFailed (msg : String)
  | insufficientBalance
  | permit2SubmitFailed (msg : String)
deriving Repr, DecidableEq

/-- `submitPermitOnChain` (permit-creation handler): checks the admin key
and token address, reads the Permit2 nonce and rejects a stale permit
before any write; then the pre-transfer validation, the conditional
EIP-2612 `token.permit` submission (when the Permit2 allowance is missing
and a `tokenPermitSig` is present), the balance gate, and the final
Permit2 `permit` submission. -/
def submitPermitOnChain (env : SubmitEnv) (permit : UserPermit) :
    Except SubmitError String × List ChainWrite :=
  if !env.adminKeyConfigured then (.error .adminKeyMissing, [])
  else
    match getTokenAddress permit.token permit.chainId with
    | none => (.error (.tokenAddressNotFound permit.token permit.chainId), [])
    | some _tokenAddress =>
      if permit.nonce ≠ env.onChainNonce then
        (.error (.permitStale env.onChainNonce permit.nonce), [])
      else
        let requiredAmount := formatTokenAmount permit.amount permit.token
        let validation := validatePreTransferRequirements permit.chainId permit.token
          env.balanceRead env.permit2AllowanceRead requiredAmount
        let step2 : Except SubmitError Unit × List ChainWrite :=
          if !validation.permit2AllowanceCheck.hasAllowance then
            if permit.hasTokenPermitSig then
              let w := ChainWrite.tokenPermit permit.chainId permit.userAddress PERMIT2_ADDRESS
              match env.tokenPermitOutcome with
              | .error msg => (.error (.tokenPermitFailed msg), [w])
              | .ok _ => (.ok (), [w])
            else (.ok (), [])
          else (.ok (), [])
        match step2 with
        | (.error e, ws) => (.error e, ws)
        | (.ok _, ws) =>
          if !validation.balanceCheck.hasBalance then (.error .insufficientBalance, ws)
          else
            let w2 := ChainWrite.permit2Permit permit.chainId permit.userAddress permit.nonce
            match env.permit2SubmitOutcome with
            | .error msg => (.error (.permit2SubmitFailed msg), ws ++ [w2])
            | .ok txHash => (.ok txHash, ws ++ [w2])

/-! ## Sequences of operations -/

/-- One settled metered call: the environment of its transfer, the paying
user, the agent, the USD cost and the call id. -/
structure CallInput where
  env : TransferEnv
  userWallet : String
  agent : Agent
  costUsd : ℚ
  apiCallId : String

/-- The store state after a sequence of calls settled by
`processCCTPPayment`. -/
def settleCalls (db : DB) (calls : List CallInput) : DB :=
  calls.foldl
    (fun d c => (processCCTPPayment c.env d c.userWallet c.agent c.costUsd c.apiCallId).2.1) db

/-- The permit-store operations exposed by `lib/db.ts` (plus the
spec-modelled `updateUsage`). -/
inductive StoreOp where
  | create (p : UserPermit)
  | setStatus (id status : String)
  | setUsage (id : String) (callsUsed : Int)

def applyStoreOp (db : DB) (op : StoreOp) : DB :=
  match op with
  | .create p => createPermit db p
  | .setStatus id status => updatePermitStatus db id status
  | .setUsage id callsUsed => updatePermitUsage db id callsUsed

def applyStoreOps (db : DB) (ops : List StoreOp) : DB :=
  ops.foldl applyStoreOp db

/-! ## Concrete instances used by witnesses and counterexamples -/

def dbEmpty : DB := { permits := [], crossChainPayments := [], payments := [] }

/-- A USDC permit on Base Sepolia with 100 calls at 0.10 USD. -/
def wPermitUSDC : UserPermit :=
  { id := "permit-usdc-base", userAddress := "0xAAAA", token := "USDC", chainId := 84532,
    spenderAddress := "0xADMIN", amount := 10000000, nonce := 0, deadline := 2000000000,
    status := "active", createdAt := 0, expiresAt := 2000000000000,
    maxCalls := 100, callsUsed := 0, costPerCall := (1 : ℚ) / 10, hasTokenPermitSig := false }

/-- The same user's USDC permit on Ethereum Sepolia. -/
def wPermitEthUSDC : UserPermit := { wPermitUSDC with id := "permit-usdc-eth", chainId := 11155111 }

/-- A PYUSD permit on Ethereum Sepolia. -/
def wPermitPyusdEth : UserPermit :=
  { wPermitUSDC with id := "permit-pyusd-eth", token := "PYUSD", chainId := 11155111 }

/-- A fully consumed zero-cost permit (the shape of the revocation permits
the frontend stores: `maxCalls = 0`, `callsUsed = 0`, `costPerCall = 0`,
status `active`). -/
def wPermitExhausted : UserPermit :=
  { wPermitUSDC with id := "permit-exhausted", maxCalls := 0, costPerCall := 0 }

/-- An agent paying out USDC on Base Sepolia at 0.10 USD per call. -/
def wAgentBase : Agent :=
  { id := "agent-base", publisher_wallet_address := "0xPUB",
    price_per_call_usd := (1 : ℚ) / 10,
    payment_preferences := { payout_token := "USDC", payout_network := "base_sepolia" } }

/-- An agent paying out USDC on Ethereum Sepolia. -/
def wAgentEth : Agent :=
  { wAgentBase with
    id := "agent-eth",
    payment_preferences := { payout_token := "USDC", payout_network := "eth_sepolia" } }

/-- An environment in which every on-chain step succeeds and the burn
receipt carries a MessageSent log. -/
def wEnvOk : TransferEnv :=
  { adminKeyConfigured := true,
    keccak256 := fun s => "keccak-" ++ s,
    sameChainWriteOutcome := .ok "0xSAMECHAINTX",
    permitTransferOutcome := .ok (),
    approveOutcome := .ok (),
    depositOutcome := .ok "0xb132433254325432543254325432543254325432543254325432543254325432",
    burnReceiptLogs := [{ topic0 := MESSAGE_SENT_EVENT_SIGNATURE, data := "0xmessagebytes" }],
    attestationOutcome := .ok ("0xmsg", "0xatt"),
    receiveOutcome := .ok "0xTARGETTX",
    nowMs := 1234 }

/-- Same as `wEnvOk` but the attestation poll fails. -/
def wEnvAttFail : TransferEnv := { wEnvOk with attestationOutcome := .error "timeout" }

/-- Same as `wEnvOk` but the burn receipt carries no MessageSent log. -/
def wEnvNoLog : TransferEnv := { wEnvOk with burnReceiptLogs := [] }

/-- Cross-chain transfer parameters for the USDC permit moving Ethereum
Sepolia to Base Sepolia. -/
def wParamsCross : TransferParams :=
  { fromAddress := "0xAAAA", toAddress := "0xPUB", amount := (1 : ℚ) / 10,
    sourceChainId := 11155111, targetChainId := 84532, token := "USDC",
    permit := wPermitEthUSDC }

/-- Cross-chain transfer parameters for a non-USDC token. -/
def wParamsNonUSDC : TransferParams := { wParamsCross with token := "PYUSD", permit := wPermitPyusdEth }

/-- A submission environment whose on-chain Permit2 nonce is 1 (ahead of
the stored permits above, which carry nonce 0). -/
def wSubmitEnvStale : SubmitEnv :=
  { adminKeyConfigured := true, onChainNonce := 1, balanceRead := 100000000,
    permit2AllowanceRead := 100000000, tokenPermitOutcome := .ok (),
    permit2SubmitOutcome := .ok "0xSUBMITTX" }

/-- A second permit for the same `(user, token, chainId)` triple as
`wPermitUSDC`, created later. -/
def wPermitUSDC2 : UserPermit := { wPermitUSDC with id := "permit-usdc-base-2", createdAt := 10 }

def dbZ1 : DB := { permits := [wPermitExhausted], crossChainPayments := [], payments := [] }

def dbP4 : DB := { permits := [wPermitPyusdEth], crossChainPayments := [], payments := [] }

def dbW1 : DB := { permits := [wPermitUSDC], crossChainPayments := [], payments := [] }

/-- A zero-cost settled call against the exhausted permit's store. -/
def wCallZero : CallInput :=
  { env := wEnvOk, userWallet := "0xAAAA", agent := wAgentBase, costUsd := 0,
    apiCallId := "call-z" }

/-- A paid settled call at 0.10 USD. -/
def wCallPaid : CallInput :=
  { env := wEnvOk, userWallet := "0xAAAA", agent := wAgentBase, costUsd := (1 : ℚ) / 10,
    apiCallId := "call-w" }

/-- The cross-chain payment record the engine persists when running
`wParamsCross` under `wEnvOk` against an empty store. -/
def wBurnRecord : CrossChainPayment :=
  { id := "cctp_1234", agentId := "", userId := "",
    sourceChainId := 11155111, targetChainId := 84532,
    amount := 100000, token := "USDC",
    messageHash := "keccak-0xmessagebytes",
    sourceTransactionHash :=
      some "0xb132433254325432543254325432543254325432543254325432543254325432",
    targetTransactionHash := none,
    attestationStatus := "pending", permitId := "permit-usdc-eth",
    createdAt := 1234, completedAt := none, errorMessage := none }

/-! ## Theorems -/

/-! ### Helper lemmas -/

theorem mem_insertDesc {a p : UserPermit} {l : List UserPermit} :
    a ∈ insertDesc p l ↔ a = p ∨ a ∈ l := by
  induction l with
  | nil => simp [insertDesc]
  | cons q t ih =>
    unfold insertDesc
    split
    · simp
    · simp only [List.mem_cons, ih]
      tauto

theorem pairwise_insertDesc {p : UserPermit} {l : List UserPermit}
    (h : l.Pairwise (fun a b => remainingValue b ≤ remainingValue a)) :
    (insertDesc p l).Pairwise (fun a b => remainingValue b ≤ remainingValue a) := by
  induction l with
  | nil => simp [insertDesc]
  | cons q t ih =>
    unfold insertDesc
    rcases List.pairwise_cons.mp h with ⟨hq, ht⟩
    split
    · next hle =>
      refine List.pairwise_cons.mpr ⟨?_, h⟩
      intro b hb
      rcases List.mem_cons.mp hb with rfl | hbt
      · exact hle
      · exact le_trans (hq b hbt) hle
    · next hlt =>
      push_neg at hlt
      refine List.pairwise_cons.mpr ⟨?_, ih ht⟩
      intro b hb
      rcases mem_insertDesc.mp hb with rfl | hbt
      · exact le_of_lt hlt
      · exact hq b hbt

theorem mem_sortByRemainingDesc {a : UserPermit} {l : List UserPermit} :
    a ∈ sortByRemainingDesc l ↔ a ∈ l := by
  induction l with
  | nil => simp [sortByRemainingDesc]
  | cons p rest ih =>
    unfold sortByRemainingDesc
    simp [mem_insertDesc, ih]

theorem pairwise_sortByRemainingDesc (l : List UserPermit) :
    (sortByRemainingDesc l).Pairwise (fun a b => remainingValue b ≤ remainingValue a) := by
  induction l with
  | nil => simp [sortByRemainingDesc]
  | cons p rest ih =>
    unfold sortByRemainingDesc
    exact pairwise_insertDesc ih

theorem sortByRemainingDesc_head (l : List UserPermit) (hl : l ≠ []) :
    ∃ q, (sortByRemainingDesc l).head? = some q ∧ q ∈ l ∧
      ∀ r ∈ l, remainingValue r ≤ remainingValue q := by
  have hne : sortByRemainingDesc l ≠ [] := by
    intro h
    rcases List.exists_mem_of_ne_nil l hl with ⟨x, hx⟩
    have : x ∈ sortByRemainingDesc l := mem_sortByRemainingDesc.mpr hx
    rw [h] at this
    cases this
  obtain ⟨q, rest, hcons⟩ := List.exists_cons_of_ne_nil hne
  refine ⟨q, by simp [hcons], ?_, ?_⟩
  · exact mem_sortByRemainingDesc.mp (by simp [hcons])
  · intro r hr
    have hrs : r ∈ sortByRemainingDesc l := mem_sortByRemainingDesc.mpr hr
    rw [hcons] at hrs
    rcases List.mem_cons.mp hrs with rfl | h2
    · exact le_refl _
    · have hpair := pairwise_sortByRemainingDesc l
      rw [hcons] at hpair
      exact (List.pairwise_cons.mp hpair).1 r h2

theorem head_sortByRemainingDesc_mem (l : List UserPermit) (q : UserPermit)
    (h : (sortByRemainingDesc l).head? = some q) : q ∈ l := by
  apply mem_sortByRemainingDesc.mp
  cases hs : sortByRemainingDesc l with
  | nil => simp [hs] at h
  | cons a t =>
    rw [hs] at h
    simp only [List.head?_cons, Option.some_inj] at h
    simp [h]

theorem findBestPermit_mem_viable (permits : List UserPermit) (agent : Agent) (costUsd : ℚ)
    (q : UserPermit) (h : findBestPermitForPayment permits agent costUsd = some q) :
    q ∈ permits ∧ remainingValue q ≥ costUsd := by
  unfold findBestPermitForPayment at h
  dsimp only [] at h
  split at h
  · exact absurd h (by simp)
  · split at h
    · have hmem := head_sortByRemainingDesc_mem _ _ h
      have h1 := List.mem_filter.mp hmem
      have h2 := List.mem_filter.mp h1.1
      exact ⟨h2.1, by simpa using h2.2⟩
    · split at h
      · have hmem := head_sortByRemainingDesc_mem _ _ h
        have h1 := List.mem_filter.mp hmem
        have h2 := List.mem_filter.mp h1.1
        exact ⟨h2.1, by simpa using h2.2⟩
      · have hmem := head_sortByRemainingDesc_mem _ _ h
        have h2 := List.mem_filter.mp hmem
        exact ⟨h2.1, by simpa using h2.2⟩

theorem executeCCTPTransfer_permits (env : TransferEnv) (params : TransferParams) (db : DB) :
    (executeCCTPTransfer env params db).2.1.permits = db.permits
    ∨ ((executeCCTPTransfer env params db).2.1.permits
        = db.permits.map (fun p => if p.id = params.permit.id
            then { p with callsUsed := params.permit.callsUsed + 1 } else p)
      ∧ ∃ r, (executeCCTPTransfer env params db).1 = .ok r ∧ r.messageHash ≠ none) := by
  unfold executeCCTPTransfer
  dsimp only []
  repeat' split
  all_goals first
    | (left; rfl)
    | (right;
       refine ⟨rfl, ?_⟩;
       exact ⟨_, rfl, by simp⟩)

theorem executeCCTPTransfer_error_permits (env : TransferEnv) (params : TransferParams)
    (db : DB) (e : TransferError)
    (h : (executeCCTPTransfer env params db).1 = .error e) :
    (executeCCTPTransfer env params db).2.1.permits = db.permits := by
  rcases executeCCTPTransfer_permits env params db with h1 | ⟨h1, r, hr, _⟩
  · exact h1
  · rw [h] at hr
    cases hr

theorem processCCTPPayment_permits (env : TransferEnv) (db : DB) (userWallet : String)
    (agent : Agent) (costUsd : ℚ) (apiCallId : String) :
    (processCCTPPayment env db userWallet agent costUsd apiCallId).2.1.permits = db.permits
    ∨ ∃ q, q ∈ db.permits ∧ q.status = "active" ∧ remainingValue q ≥ costUsd
        ∧ (processCCTPPayment env db userWallet agent costUsd apiCallId).2.1.permits
          = db.permits.map (fun p => if p.id = q.id
              then { p with callsUsed := q.callsUsed + 1 } else p) := by
  unfold processCCTPPayment
  dsimp only []
  split
  · left; rfl
  · split
    · left; rfl
    · next q hq =>
      have hqfacts := findBestPermit_mem_viable _ _ _ _ hq
      have hqactive : q.status = "active" := by
        have := (List.mem_filter.mp hqfacts.1).2
        simpa using this
      have hqdb : q ∈ db.permits :=
        (List.mem_filter.mp (List.mem_filter.mp hqfacts.1).1).1
      split
      · left; rfl
      · split
        · next e db1 ws heq =>
          left
          have h2 : (executeCCTPTransfer env
              { fromAddress := userWallet, toAddress := agent.publisher_wallet_address,
                amount := costUsd,
                sourceChainId := q.chainId,
                targetChainId := getTargetChainId agent.payment_preferences.payout_network,
                token := q.token, permit := q } db).2.1 = db1 := by rw [heq]
          have h1 : (executeCCTPTransfer env
              { fromAddress := userWallet, toAddress := agent.publisher_wallet_address,
                amount := costUsd,
                sourceChainId := q.chainId,
                targetChainId := getTargetChainId agent.payment_preferences.payout_network,
                token := q.token, permit := q } db).1 = .error e := by rw [heq]
          rw [← h2]
          exact executeCCTPTransfer_error_permits _ _ _ _ h1
        · next paymentResult db1 ws heq =>
          have h2 : (executeCCTPTransfer env
              { fromAddress := userWallet, toAddress := agent.publisher_wallet_address,
                amount := costUsd,
                sourceChainId := q.chainId,
                targetChainId := getTargetChainId agent.payment_preferences.payout_network,
                token := q.token, permit := q } db).2.1 = db1 := by rw [heq]
          have h1 : (executeCCTPTransfer env
              { fromAddress := userWallet, toAddress := agent.publisher_wallet_address,
                amount := costUsd,
                sourceChainId := q.chainId,
                targetChainId := getTargetChainId agent.payment_preferences.payout_network,
                token := q.token, permit := q } db).1 = .ok paymentResult := by rw [heq]
          rcases executeCCTPTransfer_permits env
            { fromAddress := userWallet, toAddress := agent.publisher_wallet_address,
              amount := costUsd,
              sourceChainId := q.chainId,
              targetChainId := getTargetChainId agent.payment_preferences.payout_network,
              token := q.token, permit := q } db with hA | ⟨hA, r, hr, hrmh⟩
          · -- engine left the permits unchanged
            rw [h2] at hA
            split
            · next hmh =>
              right
              exact ⟨q, hqdb, hqactive, hqfacts.2, by
                simp only [createPayment]
                unfold updatePermitUsage
                simp [hA]⟩
            · next hmh =>
              left
              simp only [createPayment]
              simpa using hA
          · -- engine already bumped the permit (cross-chain success)
            rw [h2] at hA
            have hrr : r = paymentResult := by
              rw [h1] at hr
              exact (Option.some.injEq _ _ ▸ by cases hr; rfl)
            split
            · next hmh =>
              rw [hrr] at hrmh
              exact absurd hmh hrmh
            · next hmh =>
              right
              exact ⟨q, hqdb, hqactive, hqfacts.2, by
                simp only [createPayment]
                simpa using hA⟩

theorem processCCTPPayment_ids (env : TransferEnv) (db : DB) (u : String) (agent : Agent)
    (cost : ℚ) (apiId : String) :
    (processCCTPPayment env db u agent cost apiId).2.1.permits.map (fun p => p.id)
      = db.permits.map (fun p => p.id) := by
  rcases processCCTPPayment_permits env db u agent cost apiId with h | ⟨q, _, _, _, h⟩
  · rw [h]
  · rw [h, List.map_map]
    congr 1
    funext p
    by_cases hid : p.id = q.id <;> simp [hid]

theorem eq_of_mem_of_nodup_ids {l : List UserPermit}
    (hnd : (l.map (fun p => p.id)).Nodup)
    {a b : UserPermit} (ha : a ∈ l) (hb : b ∈ l) (hid : a.id = b.id) : a = b := by
  induction l with
  | nil => cases ha
  | cons x xs ih =>
    simp only [List.map_cons, List.nodup_cons] at hnd
    rcases List.mem_cons.mp ha with rfl | ha'
    · rcases List.mem_cons.mp hb with rfl | hb'
      · rfl
      · exact absurd (by rw [hid]; exact List.mem_map_of_mem _ hb') hnd.1
    · rcases List.mem_cons.mp hb with rfl | hb'
      · exact absurd (by rw [← hid]; exact List.mem_map_of_mem _ ha') hnd.1
      · exact ih hnd.2 ha' hb'

theorem settle_step_permit (env : TransferEnv) (db : DB) (u : String) (agent : Agent)
    (cost : ℚ) (apiId : String)
    (hnd : (db.permits.map (fun p => p.id)).Nodup)
    (p : UserPermit) (hp : p ∈ db.permits) (hcost : 0 < cost)
    (hbound : p.callsUsed ≤ p.maxCalls) :
    ∃ p' ∈ (processCCTPPayment env db u agent cost apiId).2.1.permits,
      p'.id = p.id ∧ p'.maxCalls = p.maxCalls ∧ p.callsUsed ≤ p'.callsUsed
      ∧ p'.callsUsed ≤ p'.maxCalls := by
  rcases processCCTPPayment_permits env db u agent cost apiId with h | ⟨q, hqdb, _, hqv, h⟩
  · exact ⟨p, by rw [h]; exact hp, rfl, rfl, le_refl _, hbound⟩
  · by_cases hid : p.id = q.id
    · have hpq : p = q := eq_of_mem_of_nodup_ids hnd hp hqdb hid
      subst hpq
      refine ⟨{ p with callsUsed := p.callsUsed + 1 }, ?_, rfl, rfl, by simp, ?_⟩
      · rw [h]
        have := List.mem_map_of_mem
          (fun x => if x.id = p.id then { x with callsUsed := p.callsUsed + 1 } else x) hp
        simpa using this
      · rcases lt_or_eq_of_le hbound with hlt | heq2
        · simp only []
          omega
        · exfalso
          have hz : p.maxCalls - p.callsUsed = 0 := by omega
          have hv : cost ≤ ((p.maxCalls - p.callsUsed : Int) : ℚ) * p.costPerCall := hqv
          rw [hz] at hv
          simp at hv
          linarith
    · refine ⟨p, ?_, rfl, rfl, le_refl _, hbound⟩
      rw [h]
      have := List.mem_map_of_mem
        (fun x => if x.id = q.id then { x with callsUsed := q.callsUsed + 1 } else x) hp
      simpa [hid] using this

theorem settleCalls_permit (calls : List CallInput) (db : DB)
    (hnd : (db.permits.map (fun p => p.id)).Nodup)
    (hcost : ∀ c ∈ calls, 0 < c.costUsd)
    (p : UserPermit) (hp : p ∈ db.permits) (hbound : p.callsUsed ≤ p.maxCalls) :
    ∃ p' ∈ (settleCalls db calls).permits, p'.id = p.id ∧ p'.maxCalls = p.maxCalls
      ∧ p.callsUsed ≤ p'.callsUsed ∧ p'.callsUsed ≤ p'.maxCalls := by
  induction calls generalizing db p with
  | nil => exact ⟨p, hp, rfl, rfl, le_refl _, hbound⟩
  | cons c cs ih =>
    obtain ⟨p1, hp1mem, hp1id, hp1max, hp1mono, hp1bound⟩ :=
      settle_step_permit c.env db c.userWallet c.agent c.costUsd c.apiCallId hnd p hp
        (hcost c (by simp)) hbound
    have hnd1 : ((processCCTPPayment c.env db c.userWallet c.agent c.costUsd
        c.apiCallId).2.1.permits.map (fun x => x.id)).Nodup := by
      rw [processCCTPPayment_ids]
      exact hnd
    obtain ⟨p2, hmem2, hid2, hmax2, hmono2, hbound2⟩ :=
      ih _ hnd1 (fun x hx => hcost x (by simp [hx])) p1 hp1mem hp1bound
    refine ⟨p2, ?_, by rw [hid2, hp1id], by rw [hmax2, hp1max],
      le_trans hp1mono hmono2, hbound2⟩
    simpa [settleCalls, List.foldl_cons] using hmem2

theorem processCCTPPayment_error_permits (env : TransferEnv) (db : DB) (u : String)
    (agent : Agent) (cost : ℚ) (apiId : String) (e : PaymentError) :
    (processCCTPPayment env db u agent cost apiId).1 = .error e →
    (processCCTPPayment env db u agent cost apiId).2.1.permits = db.permits := by
  unfold processCCTPPayment
  dsimp only []
  split
  · intro _; rfl
  · split
    · intro _; rfl
    · next q hq =>
      split
      · intro _; rfl
      · split
        · next e' db1 ws heq =>
          intro _
          have h2 : (executeCCTPTransfer env
              { fromAddress := u, toAddress := agent.publisher_wallet_address,
                amount := cost, sourceChainId := q.chainId,
                targetChainId := getTargetChainId agent.payment_preferences.payout_network,
                token := q.token, permit := q } db).2.1 = db1 := by rw [heq]
          have h1 : (executeCCTPTransfer env
              { fromAddress := u, toAddress := agent.publisher_wallet_address,
                amount := cost, sourceChainId := q.chainId,
                targetChainId := getTargetChainId agent.payment_preferences.payout_network,
                token := q.token, permit := q } db).1 = .error e' := by rw [heq]
          rw [← h2]
          exact executeCCTPTransfer_error_permits _ _ _ _ h1
        · next paymentResult db1 ws heq =>
          intro hcontr
          simp at hcontr

theorem executePermitTransfer_ok_supported (env : TransferEnv) (permit : UserPermit)
    (amount : Int) (chainId : Int) (r : Unit) (ws : List ChainWrite)
    (h : executePermitTransfer env permit amount chainId = (.ok r, ws)) :
    routerClientSupported chainId = true := by
  unfold executePermitTransfer at h
  split at h
  · simp at h
  · next hns => simpa using hns

theorem cctpDepositForBurn_ok (env : TransferEnv) (chainId : Int) (amount : Int)
    (dd : Int) (mr bt : String) (res : String × Option String) (ws : List ChainWrite)
    (h : cctpDepositForBurn env chainId amount dd mr bt = (.ok res, ws)) :
    env.depositOutcome = .ok res.1 ∧ res.2 = none := by
  unfold cctpDepositForBurn at h
  dsimp only [] at h
  split at h
  · simp at h
  · split at h
    · simp at h
    · split at h
      · simp at h
      · next hash heq =>
        simp only [Prod.mk.injEq] at h
        obtain ⟨h1, -⟩ := h
        cases h1
        exact ⟨heq, rfl⟩


/-- C10: for every `payout_network` string outside the recognized set
(base, base_sepolia, ethereum, eth_sepolia, arbitrum, arbitrum_sepolia,
compared case-insensitively), `getTargetChainId` returns Base Sepolia
(84532) instead of failing, so an unrecognized payout network is silently
routed to Base Sepolia. -/
theorem getTargetChainId_default_unrecognized (network : String)
    (h : lowerStr network ∉
      (["base", "base_sepolia", "ethereum", "eth_sepolia", "arbitrum", "arbitrum_sepolia"] :
        List String)) :
    getTargetChainId network = 84532 := by
  simp only [List.mem_cons, List.not_mem_nil, or_false, not_or] at h
  obtain ⟨h1, h2, h3, h4, h5, h6⟩ := h
  unfold getTargetChainId SupportedChainId.BASE_SEPOLIA
  simp [h1, h2, h3, h4, h5, h6]

/-- Witness for C10 at the unrecognized network string "polygon". -/
theorem getTargetChainId_default_unrecognized_witness :
    getTargetChainId "polygon" = 84532 :=
  getTargetChainId_default_unrecognized "polygon" (by decide)

/-- C7: the Chain Validator's comparisons are inclusive on amount and
strict on expiration.  On the supported-chain, supported-token path:
`validateOnChainBalance` accepts a balance exactly equal to the required
amount (its result is the inclusive comparison), and
`validatePermit2Allowance` treats an allowance whose expiration equals the
current time as expired while accepting any `amount ≥ required` with
`expiration > now`. -/
theorem chain_validator_boundary_semantics (chainId : Int) (token : String)
    (balanceRead allowanceAmount expiration nonce currentTime : Int) (requiredAmount : ℚ)
    (hchain : routerClientSupported chainId = true)
    (htoken : getTokenAddress token chainId ≠ none) :
    ((validateOnChainBalance chainId token balanceRead requiredAmount).hasBalance
        = decide (formatTokenAmount balanceRead token ≥ requiredAmount))
    ∧ (formatTokenAmount balanceRead token = requiredAmount →
        (validateOnChainBalance chainId token balanceRead requiredAmount).hasBalance = true)
    ∧ (expiration = currentTime →
        (validatePermit2Allowance chainId token allowanceAmount expiration nonce currentTime
          requiredAmount).hasAllowance = false)
    ∧ (formatTokenAmount allowanceAmount token ≥ requiredAmount → expiration > currentTime →
        (validatePermit2Allowance chainId token allowanceAmount expiration nonce currentTime
          requiredAmount).hasAllowance = true) := by
  obtain ⟨addr, haddr⟩ := Option.ne_none_iff_exists'.mp htoken
  have hb : validateOnChainBalance chainId token balanceRead requiredAmount
      = { hasBalance := decide (formatTokenAmount balanceRead token ≥ requiredAmount),
          actualBalance := formatTokenAmount balanceRead token, error := none } := by
    unfold validateOnChainBalance
    simp [hchain, haddr]
  have hp : validatePermit2Allowance chainId token allowanceAmount expiration nonce
        currentTime requiredAmount
      = { hasAllowance := decide (formatTokenAmount allowanceAmount token ≥ requiredAmount)
            && decide (expiration > currentTime),
          actualAllowance := formatTokenAmount allowanceAmount token,
          expiration := expiration, nonce := nonce, error := none } := by
    unfold validatePermit2Allowance
    simp [hchain, haddr]
  refine ⟨by rw [hb], ?_, ?_, ?_⟩
  · intro heq
    rw [hb]
    simp [heq]
  · intro heq
    rw [hp]
    simp [heq]
  · intro hamt hexp
    rw [hp]
    simp [hamt, hexp]

/-- Witness for C7 on Base Sepolia USDC: a balance of exactly 0.10 USDC
passes a 0.10 requirement, and an allowance expiring exactly now is
rejected. -/
theorem chain_validator_boundary_semantics_witness :
    (validateOnChainBalance 84532 "USDC" 100000 ((1 : ℚ) / 10)).hasBalance = true
    ∧ (validatePermit2Allowance 84532 "USDC" 100000 1700000000 0 1700000000
        ((1 : ℚ) / 10)).hasAllowance = false := by
  have h := chain_validator_boundary_semantics 84532 "USDC" 100000 100000 1700000000 0
    1700000000 ((1 : ℚ) / 10) (by decide) (by decide)
  refine ⟨h.2.1 ?_, h.2.2.1 rfl⟩
  norm_num [formatTokenAmount, getTokenDecimals]

/-- C2: the permit submission path reads the current on-chain Permit2
nonce for `(user, token, admin)`; whenever the stored permit's nonce
differs from it, no on-chain write of any kind is issued, and — provided
the submission reaches the guard (admin key configured, token known) —
the call fails with the stale-permit error ("Permit nonce mismatch", the
spec's `PermitStale`). -/
theorem stale_nonce_guard (env : SubmitEnv) (permit : UserPermit)
    (hstale : permit.nonce ≠ env.onChainNonce) :
    (submitPermitOnChain env permit).2 = []
    ∧ (env.adminKeyConfigured = true → getTokenAddress permit.token permit.chainId ≠ none →
        (submitPermitOnChain env permit).1
          = .error (.permitStale env.onChainNonce permit.nonce)) := by
  unfold submitPermitOnChain
  cases hk : env.adminKeyConfigured with
  | false => simp
  | true =>
    cases haddr : getTokenAddress permit.token permit.chainId with
    | none => simp
    | some addr => simp [hstale]

/-- Witness for C2: the stored permit carries nonce 0 while the on-chain
nonce is 1; nothing is submitted and the stale error is raised. -/
theorem stale_nonce_guard_witness :
    (submitPermitOnChain wSubmitEnvStale wPermitUSDC).2 = []
    ∧ (submitPermitOnChain wSubmitEnvStale wPermitUSDC).1 = .error (.permitStale 1 0) := by
  have h := stale_nonce_guard wSubmitEnvStale wPermitUSDC (by decide)
  exact ⟨h.1, h.2 rfl (by decide)⟩

/-- C5: for every transfer whose token is not USDC and whose source chain
differs from the target chain, the transfer engine rejects with the
cross-chain gate error (the spec's `UnsupportedRoute`: only USDC can
cross chains) before issuing any `writeContract`: the write trace is
empty and the store is untouched. -/
theorem cross_chain_usdc_gate (env : TransferEnv) (params : TransferParams) (db : DB)
    (htoken : params.token ≠ "USDC")
    (hchains : params.sourceChainId ≠ params.targetChainId) :
    (executeCCTPTransfer env params db).2.2 = []
    ∧ (executeCCTPTransfer env params db).1
        = .error (.cctpValidationFailed "CCTP v2 only supports USDC for cross-chain transfers")
    ∧ (executeCCTPTransfer env params db).2.1 = db := by
  unfold executeCCTPTransfer validateTransfer
  simp [hchains, htoken]

/-- Witness for C5: a PYUSD transfer from Ethereum Sepolia to Base Sepolia
is rejected with an empty write trace. -/
theorem cross_chain_usdc_gate_witness :
    (executeCCTPTransfer wEnvOk wParamsNonUSDC dbEmpty).2.2 = []
    ∧ (executeCCTPTransfer wEnvOk wParamsNonUSDC dbEmpty).1
        = .error (.cctpValidationFailed "CCTP v2 only supports USDC for cross-chain transfers")
    ∧ (executeCCTPTransfer wEnvOk wParamsNonUSDC dbEmpty).2.1 = dbEmpty :=
  cross_chain_usdc_gate wEnvOk wParamsNonUSDC dbEmpty (by decide) (by decide)


theorem applyStoreOp_id_mem (db : DB) (op : StoreOp) (p : UserPermit)
    (hp : p ∈ db.permits) :
    ∃ p1 ∈ (applyStoreOp db op).permits, p1.id = p.id := by
  cases op with
  | create q => exact ⟨p, by simp [applyStoreOp, createPermit, hp], rfl⟩
  | setStatus id status =>
    refine ⟨if p.id = id then { p with status := status } else p, ?_, ?_⟩
    · simp only [applyStoreOp, updatePermitStatus]
      exact List.mem_map_of_mem _ hp
    · by_cases h : p.id = id <;> simp [h]
  | setUsage id n =>
    refine ⟨if p.id = id then { p with callsUsed := n } else p, ?_, ?_⟩
    · simp only [applyStoreOp, updatePermitUsage]
      exact List.mem_map_of_mem _ hp
    · by_cases h : p.id = id <;> simp [h]

theorem applyStoreOps_id_mem (ops : List StoreOp) (db : DB) (p : UserPermit)
    (hp : p ∈ db.permits) :
    ∃ p1 ∈ (applyStoreOps db ops).permits, p1.id = p.id := by
  induction ops generalizing db p with
  | nil => exact ⟨p, hp, rfl⟩
  | cons op rest ih =>
    obtain ⟨p1, h1, hid1⟩ := applyStoreOp_id_mem db op p hp
    obtain ⟨p2, h2, hid2⟩ := ih _ p1 h1
    exact ⟨p2, by simpa [applyStoreOps, List.foldl_cons] using h2, by rw [hid2, hid1]⟩

/-- C8: if at least one active permit matches the agent's `payout_token`
and target chain id and has remaining USD value at least the cost, the
selector returns one of those matching permits, and the returned permit
has the largest remaining value among them. -/
theorem selector_prefers_matching (permits : List UserPermit) (agent : Agent) (costUsd : ℚ)
    (p : UserPermit) (hp : p ∈ permits)
    (htok : p.token = agent.payment_preferences.payout_token)
    (hchain : p.chainId = getTargetChainId agent.payment_preferences.payout_network)
    (hviable : remainingValue p ≥ costUsd) :
    ∃ q, findBestPermitForPayment permits agent costUsd = some q
      ∧ q ∈ permits
      ∧ q.token = agent.payment_preferences.payout_token
      ∧ q.chainId = getTargetChainId agent.payment_preferences.payout_network
      ∧ remainingValue q ≥ costUsd
      ∧ ∀ r ∈ permits, r.token = agent.payment_preferences.payout_token →
          r.chainId = getTargetChainId agent.payment_preferences.payout_network →
          remainingValue r ≥ costUsd → remainingValue r ≤ remainingValue q := by
  have hpv : p ∈ permits.filter (fun x => decide (remainingValue x ≥ costUsd)) :=
    List.mem_filter.mpr ⟨hp, by simpa using hviable⟩
  have hppref : p ∈ (permits.filter (fun x => decide (remainingValue x ≥ costUsd))).filter
      (fun x => x.token == agent.payment_preferences.payout_token
        && x.chainId == getTargetChainId agent.payment_preferences.payout_network) :=
    List.mem_filter.mpr ⟨hpv, by simp [htok, hchain]⟩
  have hvne : ¬ ((permits.filter (fun x => decide (remainingValue x ≥ costUsd))).isEmpty = true) := by
    simp only [List.isEmpty_iff]
    exact List.ne_nil_of_mem hpv
  have hpne : ((permits.filter (fun x => decide (remainingValue x ≥ costUsd))).filter
      (fun x => x.token == agent.payment_preferences.payout_token
        && x.chainId == getTargetChainId agent.payment_preferences.payout_network)) ≠ [] :=
    List.ne_nil_of_mem hppref
  obtain ⟨q, hhead, hqmem, hqmax⟩ := sortByRemainingDesc_head _ hpne
  have hq1 := List.mem_filter.mp hqmem
  have hq2 := List.mem_filter.mp hq1.1
  refine ⟨q, ?_, hq2.1, ?_, ?_, by simpa using hq2.2, ?_⟩
  · unfold findBestPermitForPayment
    dsimp only []
    rw [if_neg hvne, if_pos (by simpa [List.isEmpty_iff] using hpne)]
    exact hhead
  · have := hq1.2
    simp only [Bool.and_eq_true, beq_iff_eq] at this
    exact this.1
  · have := hq1.2
    simp only [Bool.and_eq_true, beq_iff_eq] at this
    exact this.2
  · intro r hr hrtok hrchain hrviable
    apply hqmax
    exact List.mem_filter.mpr ⟨List.mem_filter.mpr ⟨hr, by simpa using hrviable⟩,
      by simp [hrtok, hrchain]⟩

/-- Witness for C8: between a PYUSD permit and a matching USDC Base
Sepolia permit, the selector returns the matching one. -/
theorem selector_prefers_matching_witness :
    ∃ q, findBestPermitForPayment [wPermitPyusdEth, wPermitUSDC] wAgentBase ((1 : ℚ) / 10)
        = some q
      ∧ q ∈ [wPermitPyusdEth, wPermitUSDC]
      ∧ q.token = wAgentBase.payment_preferences.payout_token
      ∧ q.chainId = getTargetChainId wAgentBase.payment_preferences.payout_network
      ∧ remainingValue q ≥ (1 : ℚ) / 10
      ∧ ∀ r ∈ [wPermitPyusdEth, wPermitUSDC],
          r.token = wAgentBase.payment_preferences.payout_token →
          r.chainId = getTargetChainId wAgentBase.payment_preferences.payout_network →
          remainingValue r ≥ (1 : ℚ) / 10 → remainingValue r ≤ remainingValue q :=
  selector_prefers_matching [wPermitPyusdEth, wPermitUSDC] wAgentBase ((1 : ℚ) / 10)
    wPermitUSDC (by decide) (by decide) (by decide) (by decide)

/-- C1 (amended): across any sequence of calls settled by the Transfer
Engine in which every call has positive USD cost, and starting from a
store with pairwise-distinct permit ids in which the permit satisfies
`callsUsed ≤ maxCalls`, the permit's `callsUsed` is non-decreasing and
never exceeds `maxCalls`; and a call that fails never changes any
permit's `callsUsed` (the counter is incremented only on terminal
transfer success).  The positive-cost hypothesis is forced by the
counterexample: with a zero-cost call an exhausted permit is still
selected and incremented past `maxCalls`. -/
theorem permit_usage_monotone_bounded (db : DB) (calls : List CallInput)
    (hnd : (db.permits.map (fun p => p.id)).Nodup)
    (hcost : ∀ c ∈ calls, 0 < c.costUsd)
    (p : UserPermit) (hp : p ∈ db.permits) (hbound : p.callsUsed ≤ p.maxCalls) :
    (∃ p1 ∈ (settleCalls db calls).permits, p1.id = p.id ∧ p1.maxCalls = p.maxCalls
      ∧ p.callsUsed ≤ p1.callsUsed ∧ p1.callsUsed ≤ p1.maxCalls)
    ∧ (∀ (env : TransferEnv) (u : String) (agent : Agent) (cost : ℚ) (apiId : String)
        (e : PaymentError),
        (processCCTPPayment env db u agent cost apiId).1 = .error e →
        (processCCTPPayment env db u agent cost apiId).2.1.permits = db.permits) :=
  ⟨settleCalls_permit calls db hnd hcost p hp hbound,
   fun env u agent cost apiId e h =>
     processCCTPPayment_error_permits env db u agent cost apiId e h⟩

/-- Witness for C1 (amended) at one settled 0.10-USD call against a fresh
100-call permit. -/
theorem permit_usage_monotone_bounded_witness :
    (∃ p1 ∈ (settleCalls dbW1 [wCallPaid]).permits, p1.id = wPermitUSDC.id
      ∧ p1.maxCalls = wPermitUSDC.maxCalls
      ∧ wPermitUSDC.callsUsed ≤ p1.callsUsed ∧ p1.callsUsed ≤ p1.maxCalls)
    ∧ (∀ (env : TransferEnv) (u : String) (agent : Agent) (cost : ℚ) (apiId : String)
        (e : PaymentError),
        (processCCTPPayment env dbW1 u agent cost apiId).1 = .error e →
        (processCCTPPayment env dbW1 u agent cost apiId).2.1.permits = dbW1.permits) :=
  permit_usage_monotone_bounded dbW1 [wCallPaid] (by decide)
    (fun c hc => by
      rcases List.mem_singleton.mp hc with rfl
      decide)
    wPermitUSDC (by decide) (by decide)

/-- Counterexample to C1 as stated: a zero-cost call settles against a
fully exhausted active permit (`maxCalls = 0`, the shape of a stored
revocation permit), and `callsUsed` is incremented past `maxCalls`. -/
theorem callsUsed_exceeds_maxCalls_counterexample :
    wPermitExhausted.status = "active" ∧ wPermitExhausted.maxCalls = 0
    ∧ (processCCTPPayment wEnvOk dbZ1 "0xAAAA" wAgentBase 0 "call-z").1 = .ok ()
    ∧ ∃ p1 ∈ (settleCalls dbZ1 [wCallZero]).permits,
        p1.id = wPermitExhausted.id ∧ p1.maxCalls < p1.callsUsed := by
  refine ⟨rfl, rfl, rfl, { wPermitExhausted with callsUsed := 1 }, by decide, by decide, by decide⟩

/-- C3 (code bug): when the attestation poll of a cross-chain transfer
fails, the call fails with the attestation error and the persisted
`CrossChainPayment` record is retained, but its stored `attestationStatus`
remains "pending" — the code only mutates the in-memory object (the
source notes `updateCrossChainPayment` does not exist), so the record is
never updated to "failed" as the spec requires. -/
theorem attestation_failure_leaves_pending :
    (executeCCTPTransfer wEnvAttFail wParamsCross dbEmpty).1
      = .error (.cctpTransferFailed (.attestationPollingFailed "timeout"))
    ∧ (executeCCTPTransfer wEnvAttFail wParamsCross dbEmpty).2.1.crossChainPayments.map
        (fun c => c.attestationStatus) = ["pending"]
    ∧ (executeCCTPTransfer wEnvAttFail wParamsCross dbEmpty).2.1.permits = [] :=
  ⟨rfl, by decide, by decide⟩

/-- C4 (code bug): the route decision in `executeCCTPTransfer` compares
`params.token` with itself, so a payment whose permit token differs from
the agent's payout token but whose chain matches is routed through the
same-chain `transferFrom` path: here a PYUSD permit pays a USDC-preferring
agent on the same chain with a single `transferFrom` and no burn, even
though the repository's own `needsCrossChainTransfer` says a cross-chain
transfer is required. -/
theorem route_ignores_token_difference :
    wPermitPyusdEth.token ≠ wAgentEth.payment_preferences.payout_token
    ∧ wPermitPyusdEth.chainId = getTargetChainId wAgentEth.payment_preferences.payout_network
    ∧ needsCrossChainTransfer wPermitPyusdEth wAgentEth = true
    ∧ (processCCTPPayment wEnvOk dbP4 "0xAAAA" wAgentEth ((1 : ℚ) / 10) "call-4").1 = .ok ()
    ∧ (processCCTPPayment wEnvOk dbP4 "0xAAAA" wAgentEth ((1 : ℚ) / 10) "call-4").2.2
        = [ChainWrite.transferFrom 11155111 "0xcac524bca292aaade2df8a05cc58f0a65b1b3bb9"
            "0xAAAA" "0xPUB" 100000]
    ∧ (processCCTPPayment wEnvOk dbP4 "0xAAAA" wAgentEth
        ((1 : ℚ) / 10) "call-4").2.1.crossChainPayments = [] :=
  ⟨by decide, by decide, by decide, rfl, by decide, by decide⟩

/-- Counterexample to C6 as stated: creating two active permits for the
same `(user, token, chainId)` triple leaves both active — the store never
supersedes the older one. -/
theorem duplicate_active_permits_counterexample :
    wPermitUSDC.id ≠ wPermitUSDC2.id
    ∧ wPermitUSDC.userAddress = wPermitUSDC2.userAddress
    ∧ wPermitUSDC.token = wPermitUSDC2.token
    ∧ wPermitUSDC.chainId = wPermitUSDC2.chainId
    ∧ ((createPermit (createPermit dbEmpty wPermitUSDC) wPermitUSDC2).permits.filter
        (fun p => p.status == "active"
          && lowerStr p.userAddress == lowerStr wPermitUSDC.userAddress
          && p.token == wPermitUSDC.token && p.chainId == wPermitUSDC.chainId)).length = 2 := by
  refine ⟨by decide, rfl, rfl, rfl, by decide⟩

/-- C6 (amended): the permit store retains permits — `createPermit`
appends the new permit and leaves every existing permit (and every other
table) unchanged, and across any sequence of store operations a permit's
id never disappears from the store; but nothing supersedes older active
permits, so several permits of the same `(user, token, chainId)` triple
can be active at once. -/
theorem permit_store_retention (db : DB) (q : UserPermit) (ops : List StoreOp)
    (p : UserPermit) (hp : p ∈ db.permits) :
    p ∈ (createPermit db q).permits
    ∧ q ∈ (createPermit db q).permits
    ∧ (createPermit db q).crossChainPayments = db.crossChainPayments
    ∧ ∃ p1 ∈ (applyStoreOps db ops).permits, p1.id = p.id :=
  ⟨by simp [createPermit, hp], by simp [createPermit], rfl,
   applyStoreOps_id_mem ops db p hp⟩

/-- Witness for C6 (amended): retention across a create and a status
update. -/
theorem permit_store_retention_witness :
    wPermitUSDC ∈ (createPermit dbW1 wPermitUSDC2).permits
    ∧ wPermitUSDC2 ∈ (createPermit dbW1 wPermitUSDC2).permits
    ∧ (createPermit dbW1 wPermitUSDC2).crossChainPayments = dbW1.crossChainPayments
    ∧ ∃ p1 ∈ (applyStoreOps dbW1
        [StoreOp.create wPermitUSDC2, StoreOp.setStatus "permit-usdc-base" "revoked"]).permits,
        p1.id = wPermitUSDC.id :=
  permit_store_retention dbW1 wPermitUSDC2
    [StoreOp.create wPermitUSDC2, StoreOp.setStatus "permit-usdc-base" "revoked"]
    wPermitUSDC (by decide)

/-- Counterexample to C9 as stated: a burn whose receipt carries no
`MessageSent` log still persists a `CrossChainPayment` with a non-empty
`messageHash` (the transaction-hash fallback), so the persisted hash is
not the keccak256 of any `MessageSent` log data. -/
theorem messageHash_fallback_counterexample :
    wEnvNoLog.burnReceiptLogs.find? (fun l => l.topic0 == MESSAGE_SENT_EVENT_SIGNATURE) = none
    ∧ (executeCCTPTransfer wEnvNoLog wParamsCross dbEmpty).2.1.crossChainPayments.map
        (fun c => c.messageHash)
      = ["0xb132433254325432543254325432543254325432543254325432543254325432"] :=
  ⟨by decide, by decide⟩

/-- C9 (amended): for every cross-chain burn that persists a
`CrossChainPayment` record, the persisted `messageHash` equals
`keccak256` of the `data` field of the first burn-receipt log whose first
topic is the fixed `MessageSent(bytes)` signature when such a log exists;
when no such log exists, a fallback hash — `0x` followed by the first 64
hex digits of the burn transaction hash — is persisted instead. -/
theorem messageHash_persisted (env : TransferEnv) (params : TransferParams) (db : DB)
    (c : CrossChainPayment)
    (hpersist : (executeCCTPTransfer env params db).2.1.crossChainPayments
        = db.crossChainPayments ++ [c]) :
    (∀ log, env.burnReceiptLogs.find? (fun l => l.topic0 == MESSAGE_SENT_EVENT_SIGNATURE)
        = some log → c.messageHash = env.keccak256 log.data)
    ∧ (env.burnReceiptLogs.find? (fun l => l.topic0 == MESSAGE_SENT_EVENT_SIGNATURE) = none →
        ∃ txHash, env.depositOutcome = .ok txHash
          ∧ c.messageHash = "0x" ++ strTake (strDrop txHash 2) 64) := by
  unfold executeCCTPTransfer at hpersist
  dsimp only [] at hpersist
  split at hpersist
  · exact absurd hpersist (by simp)
  · split at hpersist
    · exact absurd hpersist (by simp)
    · split at hpersist
      · exact absurd hpersist (by simp)
      · split at hpersist
        · exact absurd hpersist (by simp)
        · split at hpersist
          · exact absurd hpersist (by simp)
          · split at hpersist
            · exact absurd hpersist (by simp)
            · next r1 ws1 hept =>
              split at hpersist
              · exact absurd hpersist (by simp)
              · next r2 ws2 happ =>
                split at hpersist
                · exact absurd hpersist (by simp)
                · next depositResult ws3 hdep =>
                  have hsup := executePermitTransfer_ok_supported env params.permit _
                    params.sourceChainId r1 ws1 hept
                  obtain ⟨hdo, hd2⟩ := cctpDepositForBurn_ok env params.sourceChainId _ _
                    params.toAddress _ depositResult ws3 hdep
                  rw [hd2] at hpersist
                  split at hpersist
                  · dsimp only [createCrossChainPayment, updatePermitUsage] at hpersist
                    have hc := (List.cons_eq_cons.mp (List.append_inj_right hpersist rfl)).1
                    subst hc
                    constructor
                    · intro log hlog
                      simp [extractMessageHashFromReceipt, hsup, hlog]
                    · intro hnone
                      exact ⟨depositResult.1, hdo, by
                        simp [extractMessageHashFromReceipt, hsup, hnone]⟩
                  · split at hpersist
                    · dsimp only [createCrossChainPayment, updatePermitUsage] at hpersist
                      have hc := (List.cons_eq_cons.mp (List.append_inj_right hpersist rfl)).1
                      subst hc
                      constructor
                      · intro log hlog
                        simp [extractMessageHashFromReceipt, hsup, hlog]
                      · intro hnone
                        exact ⟨depositResult.1, hdo, by
                          simp [extractMessageHashFromReceipt, hsup, hnone]⟩
                    · dsimp only [createCrossChainPayment, updatePermitUsage] at hpersist
                      have hc := (List.cons_eq_cons.mp (List.append_inj_right hpersist rfl)).1
                      subst hc
                      constructor
                      · intro log hlog
                        simp [extractMessageHashFromReceipt, hsup, hlog]
                      · intro hnone
                        exact ⟨depositResult.1, hdo, by
                          simp [extractMessageHashFromReceipt, hsup, hnone]⟩

/-- Witness for C9 (amended): a successful burn under `wEnvOk` persists
`wBurnRecord`, whose `messageHash` is the keccak256 of the MessageSent
log's data. -/
theorem messageHash_persisted_witness :
    (∀ log, wEnvOk.burnReceiptLogs.find? (fun l => l.topic0 == MESSAGE_SENT_EVENT_SIGNATURE)
        = some log → wBurnRecord.messageHash = wEnvOk.keccak256 log.data)
    ∧ (wEnvOk.burnReceiptLogs.find? (fun l => l.topic0 == MESSAGE_SENT_EVENT_SIGNATURE) = none →
        ∃ txHash, wEnvOk.depositOutcome = .ok txHash
          ∧ wBurnRecord.messageHash = "0x" ++ strTake (strDrop txHash 2) 64) :=
  messageHash_persisted wEnvOk wParamsCross dbEmpty wBurnRecord (by decide)

end AgentMrkt
